import Mathlib

/-!
Shallow embedding of the GIF structural validator `gifcheck.go` from
sourcekris/gif-test, together with proofs about its grammar productions,
block dispatcher, trailer-forgery heuristic and patch ledger.

Buffers are modelled as `List Nat` of byte values; a Go index expression
`data[i]` that is out of bounds is a runtime panic, modelled by the
distinguished result `Res.panic`, which propagates and is never caught
(mirroring the program, which installs no recover handler).  Typed parse
failures returned as Go `error` values are modelled by `Res.err` carrying
one constructor of `GifError` per `fmt.Errorf` site.
-/

namespace GifCheck

/-- Typed parse failures, one constructor per distinct `fmt.Errorf` site of the
Go source.  Wrapping constructors mirror Go error wrapping via format strings. -/
inductive GifError where
  | badSignature : GifError
  | badVersion : GifError
  | backgroundIndexWithoutTable : GifError
  | noExtensionIntroducer : GifError
  | noGraphicControlLabel : GifError
  | badGCEBlockSize : Nat → GifError
  | missingBlockTerminator : GifError
  | noImageSeparator : GifError
  | tbiSubBlocks : GifError → GifError
  | notPlainTextExtension : GifError
  | badPlainTextBlockSize : GifError
  | pteSubBlocks : GifError → GifError
  | notApplicationExtension : GifError
  | badAppExtBlockSize : Nat → GifError
  | appExtSubBlocks : GifError → GifError
  | notSpecialPurpose : GifError → GifError
  | notGraphicRenderingBlock : GifError
  | gceWithoutRenderingBlock : GifError → Nat → Nat → GifError
  | noGraphicRenderingBlock : GifError → GifError
  | notATrailer : GifError
  | unrecognizedBlock : Nat → Nat → GifError
  | inHeader : GifError → GifError
  | inLSD : GifError → GifError
  | inDataBlocks : GifError → GifError
  | incompleteParse : Nat → Nat → GifError
deriving DecidableEq

/-- Result of a Go function returning `(value, error)`: either a value, a typed
error, or a runtime panic (out-of-bounds index or slice), which propagates. -/
inductive Res (α : Type) where
  | ok : α → Res α
  | err : GifError → Res α
  | panic : Res α
deriving DecidableEq

/-- The `patch` struct: a desired byte change at a desired index. -/
structure Patch where
  index : Nat
  oldValue : Nat
  newValue : Nat
deriving DecidableEq

/-- The `gifstate` struct threaded through the parse. -/
structure Gifstate where
  validSignature : Bool
  readTrailer : Bool
  bytesOutstanding : Nat
  patches : List Patch
deriving DecidableEq

/-- The fresh `gifstate` allocated by `main` before calling `decodeGIF`. -/
def initState : Gifstate := ⟨false, false, 0, []⟩

/-- The `header` struct. -/
structure Header where
  Signature : String
  Version : String
deriving DecidableEq

/-- The `logicalScreenDescriptor` struct.  `Width` and `Height` are declared in
the Go source but never assigned (the reads are skipped by `idx += 2`), so they
stay at their zero values. -/
structure LogicalScreenDescriptor where
  Width : Nat
  Height : Nat
  HasGlobalColourTable : Bool
  ColourResolution : Nat
  GlobalColourTableSorted : Bool
  GlobalColourTableSize : Nat
  BackgroundColourIndex : Nat
  PixelAspectRatio : Nat
deriving DecidableEq

/-- The `applicationExtension` struct; the two Go strings are kept as the raw
byte slices they are built from. -/
structure ApplicationExtension where
  Identifier : List Nat
  AuthenticationCode : List Nat
deriving DecidableEq

/-- Models `int(math.Exp2(float64 n))` for the small natural arguments the
program uses (n ≤ 8): for such n the IEEE-754 double `Exp2` result is exactly
`2^n` and the conversion to `int` is exact, so the Go expression computes the
exact integer power of two. -/
def goExp2 (n : Nat) : Nat := 2 ^ n

/-- Byte length of a colour table with size exponent `e`, as computed at the
two call sites `readGlobalColourTable` and `readTableBasedImage`:
`3 * int(math.Exp2(float64(e+1)))`. -/
def colourTableBytes (e : Nat) : Nat := 3 * goExp2 (e + 1)

/-- Second half of `readHeader`: the `GIF89a` version check, reached when the
`87a` comparison chain has failed.  Re-reads the same version bytes the way the
Go short-circuit conditions do. -/
def readHeader89 (data : List Nat) (idx : Nat) : Res (Header × Nat) :=
  match data[idx+3]? with
  | none => .panic
  | some v0 =>
    if v0 = 56 then
      match data[idx+4]? with
      | none => .panic
      | some v1 =>
        if v1 = 57 then
          match data[idx+5]? with
          | none => .panic
          | some v2 =>
            if v2 = 97 then .ok (⟨"GIF", "89a"⟩, idx + 6) else .err .badVersion
        else .err .badVersion
    else .err .badVersion

/-- `readHeader`: 3 signature bytes `GIF` then 3 version bytes (`87a`/`89a`).
Reads happen in the Go short-circuit order, so a mismatching byte stops further
reads while a matching prefix of a truncated buffer panics. -/
def readHeader (data : List Nat) (idx : Nat) : Res (Header × Nat) :=
  match data[idx]? with
  | none => .panic
  | some g =>
    if g ≠ 71 then .err .badSignature else
    match data[idx+1]? with
    | none => .panic
    | some i =>
      if i ≠ 73 then .err .badSignature else
      match data[idx+2]? with
      | none => .panic
      | some f =>
        if f ≠ 70 then .err .badSignature else
        match data[idx+3]? with
        | none => .panic
        | some v0 =>
          if v0 = 56 then
            match data[idx+4]? with
            | none => .panic
            | some v1 =>
              if v1 = 55 then
                match data[idx+5]? with
                | none => .panic
                | some v2 =>
                  if v2 = 97 then .ok (⟨"GIF", "87a"⟩, idx + 6)
                  else readHeader89 data idx
              else readHeader89 data idx
          else .err .badVersion

/-- `readLogicalScreenDescriptor`: skips width and height, reads the packed
field at `idx+4`, the background colour index at `idx+5` (rejecting a non-zero
value without a global colour table) and the aspect ratio at `idx+6`. -/
def readLogicalScreenDescriptor (data : List Nat) (idx : Nat) :
    Res (LogicalScreenDescriptor × Nat) :=
  match data[idx+4]? with
  | none => .panic
  | some packed =>
    match data[idx+5]? with
    | none => .panic
    | some bg =>
      if ¬(packed &&& 128 = 128) ∧ bg ≠ 0 then .err .backgroundIndexWithoutTable
      else
        match data[idx+6]? with
        | none => .panic
        | some aspect =>
          .ok ({ Width := 0
               , Height := 0
               , HasGlobalColourTable := decide (packed &&& 128 = 128)
               , ColourResolution := ((packed &&& 112) >>> 4) + 1
               , GlobalColourTableSorted := decide (packed &&& 8 = 8)
               , GlobalColourTableSize := packed &&& 7
               , BackgroundColourIndex := bg
               , PixelAspectRatio := aspect }, idx + 7)

/-- `readGlobalColourTable`: performs no read at all, it only advances the
offset by the computed table byte length and never fails. -/
def readGlobalColourTable (sd : LogicalScreenDescriptor) (idx : Nat) : Nat :=
  idx + colourTableBytes sd.GlobalColourTableSize

/-- Fuel-indexed body of `readDataSubBlocks`: read a length byte, stop on a
zero length, otherwise append the payload slice `data[idx+1 : idx+1+sz]`
(panicking, like the Go slice expression, when the upper bound exceeds the
buffer) and continue.  `none` means the fuel ran out, which the wrapper's
sufficiency lemma shows never happens at the fuel it supplies. -/
def readDataSubBlocksGo (data : List Nat) : Nat → Nat → List Nat → Option (Res (List Nat × Nat))
  | 0, _, _ => none
  | fuel+1, idx, buf =>
    match data[idx]? with
    | none => some .panic
    | some sz =>
      if sz = 0 then some (.ok (buf, idx + 1))
      else if idx + 1 + sz ≤ data.length then
        readDataSubBlocksGo data fuel (idx + 1 + sz) (buf ++ (data.drop (idx+1)).take sz)
      else some .panic

/-- `readDataSubBlocks`: the sub-block loop advances by at least two bytes per
iteration, so `data.length - idx + 1` rounds of fuel always suffice. -/
def readDataSubBlocks (data : List Nat) (idx : Nat) : Res (List Nat × Nat) :=
  (readDataSubBlocksGo data (data.length - idx + 1) idx []).getD .panic

/-- `readGraphicControlExtension`: introducer `0x21`, label `0xf9`, block size
byte that must equal 4, a skipped body of `sz` bytes and a zero terminator. -/
def readGraphicControlExtension (data : List Nat) (idx : Nat) : Res Nat :=
  match data[idx]? with
  | none => .panic
  | some b0 =>
    if b0 ≠ 33 then .err .noExtensionIntroducer else
    match data[idx+1]? with
    | none => .panic
    | some b1 =>
      if b1 ≠ 249 then .err .noGraphicControlLabel else
      match data[idx+2]? with
      | none => .panic
      | some sz =>
        if sz ≠ 4 then .err (.badGCEBlockSize sz) else
        match data[idx+3+sz]? with
        | none => .panic
        | some t =>
          if t ≠ 0 then .err .missingBlockTerminator else .ok (idx + 3 + sz + 1)

/-- `readTableBasedImage`: image separator `0x2c`, 8 skipped descriptor bytes,
packed field at `idx+9`, an optional local colour table skip, the LZW minimum
code size byte and the image data sub-blocks. -/
def readTableBasedImage (data : List Nat) (idx : Nat) : Res Nat :=
  match data[idx]? with
  | none => .panic
  | some b0 =>
    if b0 ≠ 44 then .err .noImageSeparator else
    match data[idx+9]? with
    | none => .panic
    | some packed =>
      match data[(if packed &&& 128 = 128 then
          idx + 10 + colourTableBytes (packed &&& 7) else idx + 10)]? with
      | none => .panic
      | some _ =>
        match readDataSubBlocks data ((if packed &&& 128 = 128 then
            idx + 10 + colourTableBytes (packed &&& 7) else idx + 10) + 1) with
        | .ok (_, n) => .ok n
        | .err e => .err (.tbiSubBlocks e)
        | .panic => .panic

/-- `readPlainTextExtension`: introducer `0x21`, label `0x01`, size byte that
must equal 12, then (as the Go code does) an advance of 12 from the size byte
before the plain-text data sub-blocks. -/
def readPlainTextExtension (data : List Nat) (idx : Nat) : Res Nat :=
  match data[idx]? with
  | none => .panic
  | some b0 =>
    if b0 ≠ 33 then .err .noExtensionIntroducer else
    match data[idx+1]? with
    | none => .panic
    | some b1 =>
      if b1 ≠ 1 then .err .notPlainTextExtension else
      match data[idx+2]? with
      | none => .panic
      | some b2 =>
        if b2 ≠ 12 then .err .badPlainTextBlockSize else
        match readDataSubBlocks data (idx + 14) with
        | .ok (_, n) => .ok n
        | .err e => .err (.pteSubBlocks e)
        | .panic => .panic

/-- `readApplicationExtension`: introducer `0x21`, label `0xff`, size byte that
must equal 11, an 8-byte identifier slice, a 3-byte authentication code slice
(each Go slice expression panicking when its upper bound exceeds the buffer)
and the application data sub-blocks. -/
def readApplicationExtension (data : List Nat) (idx : Nat) :
    Res (ApplicationExtension × Nat) :=
  match data[idx]? with
  | none => .panic
  | some b0 =>
    if b0 ≠ 33 then .err .noExtensionIntroducer else
    match data[idx+1]? with
    | none => .panic
    | some b1 =>
      if b1 ≠ 255 then .err .notApplicationExtension else
      match data[idx+2]? with
      | none => .panic
      | some b2 =>
        if b2 ≠ 11 then .err (.badAppExtBlockSize b2) else
        if idx + 11 ≤ data.length then
          if idx + 14 ≤ data.length then
            match readDataSubBlocks data (idx + 14) with
            | .ok (_, n) =>
              .ok (⟨(data.drop (idx+3)).take 8, (data.drop (idx+11)).take 3⟩, n)
            | .err e => .err (.appExtSubBlocks e)
            | .panic => .panic
          else .panic
        else .panic

/-- `readSpecialPurposeBlock`: only the Application Extension alternative is
implemented; Comment Extension is commented out in the source. -/
def readSpecialPurposeBlock (data : List Nat) (idx : Nat) :
    Res (ApplicationExtension × Nat) :=
  match readApplicationExtension data idx with
  | .ok r => .ok r
  | .err e => .err (.notSpecialPurpose e)
  | .panic => .panic

/-- `readGraphicRenderingBlock`: Table-Based Image, else Plain Text Extension;
both failing is reported as a single fresh error discarding the inner ones. -/
def readGraphicRenderingBlock (data : List Nat) (idx : Nat) : Res Nat :=
  match readTableBasedImage data idx with
  | .ok n => .ok n
  | .panic => .panic
  | .err _ =>
    match readPlainTextExtension data idx with
    | .ok n => .ok n
    | .panic => .panic
    | .err _ => .err .notGraphicRenderingBlock

/-- `readTrailer`: a single `0x3b` sentinel byte. -/
def readTrailer (data : List Nat) (idx : Nat) : Res Nat :=
  match data[idx]? with
  | none => .panic
  | some b => if b ≠ 59 then .err .notATrailer else .ok (idx + 1)

/-- `readGraphicBlock`: an optional Graphic Control Extension, then (tolerating
non-conformant streams) an Application Extension, else a Graphic-Rendering
Block.  When a GCE was consumed and the rendering block fails, the error
message formats `data[idx]` and `data[idx+1]`, so that failure path itself
reads the buffer and panics when fewer than two bytes remain. -/
def readGraphicBlock (data : List Nat) (idx : Nat) : Res Nat :=
  match readGraphicControlExtension data idx with
  | .panic => .panic
  | .ok gceIdx =>
    match readApplicationExtension data gceIdx with
    | .ok (_, n) => .ok n
    | .panic => .panic
    | .err _ =>
      match readGraphicRenderingBlock data gceIdx with
      | .ok n => .ok n
      | .panic => .panic
      | .err e =>
        match data[gceIdx]?, data[gceIdx+1]? with
        | some b0, some b1 => .err (.gceWithoutRenderingBlock e b0 b1)
        | _, _ => .panic
  | .err _ =>
    match readApplicationExtension data idx with
    | .ok (_, n) => .ok n
    | .panic => .panic
    | .err _ =>
      match readGraphicRenderingBlock data idx with
      | .ok n => .ok n
      | .panic => .panic
      | .err e => .err (.noGraphicRenderingBlock e)

/-- Outcome of one iteration of the `readDataBlocksAndTrailer` loop:
continue scanning with a possibly patched buffer and advanced offset, return
successfully with the post-trailer offset, fail with an unrecognized block, or
abort on a runtime panic. -/
inductive StepOut where
  | cont : List Nat → Nat → Gifstate → StepOut
  | done : List Nat → Gifstate → Nat → StepOut
  | fail : List Nat → Gifstate → GifError → StepOut
  | panicked : List Nat → Gifstate → StepOut
deriving DecidableEq

/-- Buffer component of a loop iteration outcome. -/
def StepOut.buf : StepOut → List Nat
  | .cont d _ _ => d
  | .done d _ _ => d
  | .fail d _ _ => d
  | .panicked d _ => d

/-- State component of a loop iteration outcome. -/
def StepOut.state : StepOut → Gifstate
  | .cont _ _ g => g
  | .done _ g _ => g
  | .fail _ g _ => g
  | .panicked _ g => g

/-- One iteration of the `readDataBlocksAndTrailer` loop: try Special-Purpose
Block, then Graphic Block, then Trailer, in that order.  On an early trailer
with `reprocess` set, speculatively re-parse a scratch copy with the trailer
byte rewritten to the extension introducer; on success commit the byte to the
real buffer, append the patch, and continue at the unchanged offset `idx`
(the Go `continue` statement does not advance `idx`). -/
def dispatchStep (reprocess : Bool) (data : List Nat) (idx : Nat) (gs : Gifstate) : StepOut :=
  match readSpecialPurposeBlock data idx with
  | .ok (_, nextIdx) => .cont data nextIdx gs
  | .panic => .panicked data gs
  | .err _ =>
    match readGraphicBlock data idx with
    | .ok nextIdx => .cont data nextIdx gs
    | .panic => .panicked data gs
    | .err _ =>
      match readTrailer data idx with
      | .panic => .panicked data gs
      | .err _ => .fail data gs (.unrecognizedBlock idx data.length)
      | .ok nextIdx =>
        if nextIdx < data.length then
          if reprocess then
            match readGraphicBlock (data.set idx 33) idx with
            | .ok _ =>
              .cont (data.set idx 33) idx
                { gs with readTrailer := true
                        , bytesOutstanding := data.length - nextIdx
                        , patches := gs.patches ++ [⟨idx, 59, 33⟩] }
            | .err _ =>
              .done data
                { gs with readTrailer := true
                        , bytesOutstanding := data.length - nextIdx } nextIdx
            | .panic =>
              .panicked data
                { gs with readTrailer := true
                        , bytesOutstanding := data.length - nextIdx }
          else
            .done data
              { gs with readTrailer := true
                      , bytesOutstanding := data.length - nextIdx } nextIdx
        else
          .done data { gs with readTrailer := true, bytesOutstanding := 0 } nextIdx

/-- Fuel-indexed `readDataBlocksAndTrailer` loop.  `none` means the fuel ran
out; the termination theorem shows buffer-length fuel always suffices. -/
def dataBlocksLoop (reprocess : Bool) :
    Nat → List Nat → Nat → Gifstate → Option (List Nat × Gifstate × Res Nat)
  | 0, _, _, _ => none
  | fuel+1, data, idx, gs =>
    match dispatchStep reprocess data idx gs with
    | .cont d i g => dataBlocksLoop reprocess fuel d i g
    | .done d g n => some (d, g, .ok n)
    | .fail d g e => some (d, g, .err e)
    | .panicked d g => some (d, g, .panic)

/-- `readDataBlocksAndTrailer`, run with fuel equal to the buffer length. -/
def readDataBlocksAndTrailer (reprocess : Bool) (data : List Nat) (idx : Nat)
    (gs : Gifstate) : Option (List Nat × Gifstate × Res Nat) :=
  dataBlocksLoop reprocess data.length data idx gs

/-- `decodeGIF` on an in-memory buffer: header, logical screen descriptor,
optional global colour table skip, then the data-block loop, then the final
`idx != len(data)` check that turns a short parse into a hard error.  The
result carries the (possibly patched) buffer and the `gifstate`.  The optional
patched-file write is modelled separately by `applyPatchesRes`. -/
def decodeGIF (reprocess : Bool) (data : List Nat) :
    Option (List Nat × Gifstate × Res Nat) :=
  match readHeader data 0 with
  | .panic => some (data, initState, .panic)
  | .err e => some (data, initState, .err (.inHeader e))
  | .ok (_, idx1) =>
    match readLogicalScreenDescriptor data idx1 with
    | .panic => some (data, { initState with validSignature := true }, .panic)
    | .err e => some (data, { initState with validSignature := true }, .err (.inLSD e))
    | .ok (sd, idx2) =>
      match readDataBlocksAndTrailer reprocess data
          (if sd.HasGlobalColourTable then readGlobalColourTable sd idx2 else idx2)
          { initState with validSignature := true } with
      | none => none
      | some (d, g, .panic) => some (d, g, .panic)
      | some (d, g, .err e) => some (d, g, .err (.inDataBlocks e))
      | some (d, g, .ok n) =>
        if n = d.length then some (d, g, .ok n)
        else some (d, g, .err (.incompleteParse n d.length))

/-- The patch-application loop of the output-writing step in `decodeGIF`: for
each recorded patch, re-check that the byte at `index` still equals `oldValue`
and only then overwrite it with `newValue`, silently skipping stale patches. -/
def applyPatchesRes (data : List Nat) : List Patch → Res (List Nat)
  | [] => .ok data
  | p :: ps =>
    match data[p.index]? with
    | none => .panic
    | some b =>
      if b = p.oldValue then applyPatchesRes (data.set p.index p.newValue) ps
      else applyPatchesRes data ps

/-- Termination measure for the dispatcher loop: remaining bytes plus one when
the current byte is a trailer sentinel (a successful forgery recovery keeps the
offset but rewrites that byte, so the measure still decreases). -/
def stepMeasure (data : List Nat) (idx : Nat) : Nat :=
  (data.length - idx) + (if data[idx]? = some 59 then 1 else 0)

/-- Invariant of the patch ledger: every recorded patch is the trailer-to-
introducer substitution, and the buffer already holds the new value at the
patched index. -/
def PatchInv (d : List Nat) (gs : Gifstate) : Prop :=
  ∀ p ∈ gs.patches, p.index < d.length ∧ d[p.index]? = some p.newValue ∧
    p.oldValue = 59 ∧ p.newValue = 33

/-- A minimal Table-Based Image block: separator, zero descriptor, no local
colour table, code size 2, empty image data. -/
def tbiBlock : List Nat := [44, 0, 0, 0, 0, 0, 0, 0, 0, 0, 2, 0]

/-- `GIF89a` signature plus an all-zero logical screen descriptor. -/
def gifPrefix : List Nat := [71, 73, 70, 56, 57, 97, 0, 0, 0, 0, 0, 0, 0]

/-- Prefix, one image, a premature trailer, a second complete image, and the
final trailer: the shape named by the literal text of the forged-trailer
claim, on which recovery in fact fails. -/
def bufTwoBlocks : List Nat := gifPrefix ++ tbiBlock ++ [59] ++ tbiBlock ++ [59]

/-- Prefix, one image, then a Graphic Control Extension whose introducer byte
has been overwritten with the trailer sentinel, a second image, and the final
trailer: the shape recovery is actually designed for. -/
def bufRecoverable : List Nat :=
  gifPrefix ++ tbiBlock ++ [59] ++ [249, 4, 0, 0, 0, 0, 0] ++ tbiBlock ++ [59]

/-- Prefix, an immediate trailer, and one trailing byte. -/
def bufEarlyTrailer : List Nat := gifPrefix ++ [59, 0]

/-- Valid header, no global colour table, non-zero background colour index. -/
def bufBadBackground : List Nat := [71, 73, 70, 56, 57, 97, 0, 0, 0, 0, 0, 5, 0]

/-- A well-formed buffer truncated to its 6-byte header. -/
def bufHeaderOnly : List Nat := [71, 73, 70, 56, 57, 97]

/-- A minimal stand-alone Application Extension block. -/
def appExtBlock : List Nat :=
  [33, 255, 11, 65, 65, 65, 65, 65, 65, 65, 65, 66, 66, 66, 0]

/-- A complete Graphic Control Extension (8 bytes). -/
def gceOnly : List Nat := [33, 249, 4, 0, 0, 0, 0, 0]

/-- A Graphic Control Extension followed by two bytes that start no rendering
block: the failure path can format its two diagnostic bytes. -/
def gceThenBytes : List Nat := gceOnly ++ [0, 0]

/-- A Graphic Control Extension followed by a single byte: the failure path's
diagnostic read of `data[idx+1]` is out of bounds. -/
def gceTruncated : List Nat := gceOnly ++ [0]

/-! Helper lemmas: inversion and advance facts about the grammar productions,
a case characterization of one dispatcher iteration, and fuel lemmas for the
dispatcher loop. -/

theorem lt_of_getElem?_eq_some {l : List Nat} {i b : Nat} (h : l[i]? = some b) :
    i < l.length := by
  by_contra hn
  rw [List.getElem?_eq_none (by omega)] at h
  simp at h

theorem trailer_ok_elim {data : List Nat} {idx n : Nat}
    (h : readTrailer data idx = .ok n) :
    data[idx]? = some 59 ∧ n = idx + 1 := by
  rcases hb : data[idx]? with _ | b
  · simp only [readTrailer, hb] at h
    simp at h
  · simp only [readTrailer, hb] at h
    split at h
    · simp at h
    · rename_i hb59
      have hb' : b = 59 := by omega
      subst hb'
      injection h with h1
      exact ⟨rfl, h1.symm⟩

theorem trailer_at59 {data : List Nat} {idx : Nat} (h : data[idx]? = some 59) :
    readTrailer data idx = .ok (idx + 1) := by
  simp [readTrailer, h]

theorem subGo_ok_advance (data : List Nat) :
    ∀ fuel idx buf b j, readDataSubBlocksGo data fuel idx buf = some (.ok (b, j)) →
      idx + 1 ≤ j := by
  intro fuel
  induction fuel with
  | zero => intro idx buf b j h; simp [readDataSubBlocksGo] at h
  | succ f ih =>
    intro idx buf b j h
    rcases hb : data[idx]? with _ | sz
    · simp only [readDataSubBlocksGo, hb] at h
      simp at h
    · simp only [readDataSubBlocksGo, hb] at h
      by_cases hsz : sz = 0
      · rw [if_pos hsz] at h
        simp at h
        omega
      · rw [if_neg hsz] at h
        by_cases hle : idx + 1 + sz ≤ data.length
        · rw [if_pos hle] at h
          have := ih (idx + 1 + sz) (buf ++ (data.drop (idx+1)).take sz) b j h
          omega
        · rw [if_neg hle] at h
          simp at h

theorem subGo_isSome (data : List Nat) :
    ∀ fuel idx buf, data.length - idx < fuel →
      (readDataSubBlocksGo data fuel idx buf).isSome := by
  intro fuel
  induction fuel with
  | zero => intro idx buf h; omega
  | succ f ih =>
    intro idx buf h
    rcases hb : data[idx]? with _ | sz
    · simp [readDataSubBlocksGo, hb]
    · simp only [readDataSubBlocksGo, hb]
      by_cases hsz : sz = 0
      · simp [hsz]
      · rw [if_neg hsz]
        by_cases hle : idx + 1 + sz ≤ data.length
        · rw [if_pos hle]
          exact ih (idx + 1 + sz) _ (by omega)
        · simp [hle]

theorem readDataSubBlocks_ok_advance {data : List Nat} {idx : Nat} {b : List Nat} {j : Nat}
    (h : readDataSubBlocks data idx = .ok (b, j)) : idx + 1 ≤ j := by
  unfold readDataSubBlocks at h
  rcases hg : readDataSubBlocksGo data (data.length - idx + 1) idx [] with _ | r
  · rw [hg] at h; simp at h
  · rw [hg] at h
    simp only [Option.getD_some] at h
    subst h
    exact subGo_ok_advance data _ idx [] b j hg

theorem appExt_ok_elim {data : List Nat} {idx : Nat} {e : ApplicationExtension} {j : Nat}
    (h : readApplicationExtension data idx = .ok (e, j)) :
    data[idx]? = some 33 ∧ data[idx+1]? = some 255 ∧ idx + 15 ≤ j := by
  rcases hb0 : data[idx]? with _ | b0
  · simp only [readApplicationExtension, hb0] at h
    simp at h
  · simp only [readApplicationExtension, hb0] at h
    split at h
    · simp at h
    rename_i hb0e
    have : b0 = 33 := by omega
    subst this
    rcases hb1 : data[idx+1]? with _ | b1
    · rw [hb1] at h; simp at h
    rw [hb1] at h
    simp only at h
    split at h
    · simp at h
    rename_i hb1e
    have : b1 = 255 := by omega
    subst this
    rcases hb2 : data[idx+2]? with _ | b2
    · rw [hb2] at h; simp at h
    rw [hb2] at h
    simp only at h
    split at h
    · simp at h
    split at h
    · split at h
      · rcases hsb : readDataSubBlocks data (idx + 14) with ⟨bs, n⟩ | es | _ <;>
          rw [hsb] at h <;> simp only at h
        · injection h with h1
          injection h1 with h2 h3
          subst h3
          have := readDataSubBlocks_ok_advance hsb
          exact ⟨rfl, rfl, by omega⟩
        · simp at h
        · simp at h
      · simp at h
    · simp at h

theorem gce_ok_elim {data : List Nat} {idx j : Nat}
    (h : readGraphicControlExtension data idx = .ok j) :
    data[idx]? = some 33 ∧ data[idx+1]? = some 249 ∧ idx + 4 ≤ j := by
  rcases hb0 : data[idx]? with _ | b0
  · simp only [readGraphicControlExtension, hb0] at h
    simp at h
  · simp only [readGraphicControlExtension, hb0] at h
    split at h
    · simp at h
    rename_i hb0e
    have : b0 = 33 := by omega
    subst this
    rcases hb1 : data[idx+1]? with _ | b1
    · rw [hb1] at h; simp at h
    rw [hb1] at h
    simp only at h
    split at h
    · simp at h
    rename_i hb1e
    have : b1 = 249 := by omega
    subst this
    rcases hb2 : data[idx+2]? with _ | sz
    · rw [hb2] at h; simp at h
    rw [hb2] at h
    simp only at h
    split at h
    · simp at h
    rcases hb3 : data[idx+3+sz]? with _ | t
    · rw [hb3] at h; simp at h
    rw [hb3] at h
    simp only at h
    split at h
    · simp at h
    injection h with h1
    exact ⟨rfl, rfl, by omega⟩

theorem tbi_ok_elim {data : List Nat} {idx j : Nat}
    (h : readTableBasedImage data idx = .ok j) :
    data[idx]? = some 44 ∧ idx + 12 ≤ j := by
  rcases hb0 : data[idx]? with _ | b0
  · simp only [readTableBasedImage, hb0] at h
    simp at h
  · simp only [readTableBasedImage, hb0] at h
    split at h
    · simp at h
    rename_i hb0e
    have : b0 = 44 := by omega
    subst this
    rcases hp : data[idx+9]? with _ | packed
    · rw [hp] at h; simp at h
    rw [hp] at h
    simp only at h
    by_cases hflag : packed &&& 128 = 128 <;>
      simp only [if_pos, if_neg, hflag, if_true, if_false] at h
    · rcases hcs : data[idx + 10 + colourTableBytes (packed &&& 7)]? with _ | cs
      · rw [hcs] at h; simp at h
      rw [hcs] at h
      simp only at h
      rcases hsb : readDataSubBlocks data (idx + 10 + colourTableBytes (packed &&& 7) + 1)
          with ⟨bs, n⟩ | es | _ <;> rw [hsb] at h <;> simp only at h
      · injection h with h1
        subst h1
        have := readDataSubBlocks_ok_advance hsb
        exact ⟨rfl, by omega⟩
      · simp at h
      · simp at h
    · rcases hcs : data[idx + 10]? with _ | cs
      · rw [hcs] at h; simp at h
      rw [hcs] at h
      simp only at h
      rcases hsb : readDataSubBlocks data (idx + 10 + 1) with ⟨bs, n⟩ | es | _ <;>
        rw [hsb] at h <;> simp only at h
      · injection h with h1
        subst h1
        have := readDataSubBlocks_ok_advance hsb
        exact ⟨rfl, by omega⟩
      · simp at h
      · simp at h

theorem pte_ok_elim {data : List Nat} {idx j : Nat}
    (h : readPlainTextExtension data idx = .ok j) :
    data[idx]? = some 33 ∧ idx + 15 ≤ j := by
  rcases hb0 : data[idx]? with _ | b0
  · simp only [readPlainTextExtension, hb0] at h
    simp at h
  · simp only [readPlainTextExtension, hb0] at h
    split at h
    · simp at h
    rename_i hb0e
    have : b0 = 33 := by omega
    subst this
    rcases hb1 : data[idx+1]? with _ | b1
    · rw [hb1] at h; simp at h
    rw [hb1] at h
    simp only at h
    split at h
    · simp at h
    rcases hb2 : data[idx+2]? with _ | b2
    · rw [hb2] at h; simp at h
    rw [hb2] at h
    simp only at h
    split at h
    · simp at h
    rcases hsb : readDataSubBlocks data (idx + 14) with ⟨bs, n⟩ | es | _ <;>
      rw [hsb] at h <;> simp only at h
    · injection h with h1
      subst h1
      have := readDataSubBlocks_ok_advance hsb
      exact ⟨rfl, by omega⟩
    · simp at h
    · simp at h

theorem rendering_ok_elim {data : List Nat} {idx j : Nat}
    (h : readGraphicRenderingBlock data idx = .ok j) :
    (∃ b, data[idx]? = some b) ∧ idx + 12 ≤ j := by
  rcases ht : readTableBasedImage data idx with n | e | _ <;>
    simp only [readGraphicRenderingBlock, ht] at h
  · injection h with h1
    subst h1
    obtain ⟨h44, hadv⟩ := tbi_ok_elim ht
    exact ⟨⟨44, h44⟩, hadv⟩
  · rcases hp : readPlainTextExtension data idx with n | e2 | _ <;>
      rw [hp] at h <;> simp only at h
    · injection h with h1
      subst h1
      obtain ⟨h33, hadv⟩ := pte_ok_elim hp
      exact ⟨⟨33, h33⟩, by omega⟩
    · simp at h
    · simp at h
  · simp at h

theorem special_ok_elim {data : List Nat} {idx : Nat} {e : ApplicationExtension} {j : Nat}
    (h : readSpecialPurposeBlock data idx = .ok (e, j)) :
    readApplicationExtension data idx = .ok (e, j) := by
  rcases ha : readApplicationExtension data idx with v | e2 | _ <;>
    simp only [readSpecialPurposeBlock, ha] at h
  · injection h with h1
    rw [h1]
  · simp at h
  · simp at h

theorem special_panic_elim {data : List Nat} {idx : Nat}
    (h : readSpecialPurposeBlock data idx = .panic) :
    readApplicationExtension data idx = .panic := by
  rcases ha : readApplicationExtension data idx with v | e2 | _ <;>
    simp only [readSpecialPurposeBlock, ha] at h
  · simp at h
  · simp at h
  · rfl

theorem graphic_ok_elim {data : List Nat} {idx j : Nat}
    (h : readGraphicBlock data idx = .ok j) :
    idx + 2 ≤ j ∧ idx < data.length := by
  rcases hg : readGraphicControlExtension data idx with g | e | _ <;>
    simp only [readGraphicBlock, hg] at h
  · obtain ⟨h33, _, hg4⟩ := gce_ok_elim hg
    have hlt := lt_of_getElem?_eq_some h33
    rcases ha : readApplicationExtension data g with ⟨ext, n⟩ | e2 | _ <;>
      rw [ha] at h <;> simp only at h
    · injection h with h1
      obtain ⟨_, _, hadv⟩ := appExt_ok_elim ha
      exact ⟨by omega, hlt⟩
    · rcases hr : readGraphicRenderingBlock data g with n | e3 | _ <;>
        rw [hr] at h <;> simp only at h
      · injection h with h1
        obtain ⟨_, hadv⟩ := rendering_ok_elim hr
        exact ⟨by omega, hlt⟩
      · rcases hd0 : data[g]? with _ | b0 <;> rcases hd1 : data[g+1]? with _ | b1 <;>
          rw [hd0, hd1] at h <;> simp at h
      · simp at h
    · simp at h
  · rcases ha : readApplicationExtension data idx with ⟨ext, n⟩ | e2 | _ <;>
      rw [ha] at h <;> simp only at h
    · injection h with h1
      obtain ⟨h33, _, hadv⟩ := appExt_ok_elim ha
      exact ⟨by omega, lt_of_getElem?_eq_some h33⟩
    · rcases hr : readGraphicRenderingBlock data idx with n | e3 | _ <;>
        rw [hr] at h <;> simp only at h
      · injection h with h1
        obtain ⟨⟨b, hb⟩, hadv⟩ := rendering_ok_elim hr
        exact ⟨by omega, lt_of_getElem?_eq_some hb⟩
      · simp at h
      · simp at h
    · simp at h
  · simp at h

theorem special_at59 {data : List Nat} {idx : Nat} (h : data[idx]? = some 59) :
    readSpecialPurposeBlock data idx = .err (.notSpecialPurpose .noExtensionIntroducer) := by
  simp [readSpecialPurposeBlock, readApplicationExtension, h]

theorem graphic_at59 {data : List Nat} {idx : Nat} (h : data[idx]? = some 59) :
    readGraphicBlock data idx = .err (.noGraphicRenderingBlock .notGraphicRenderingBlock) := by
  simp [readGraphicBlock, readGraphicControlExtension, readApplicationExtension,
        readGraphicRenderingBlock, readTableBasedImage, readPlainTextExtension, h]

theorem appExt_panic_graphic {data : List Nat} {idx : Nat}
    (h : readApplicationExtension data idx = .panic) :
    readGraphicBlock data idx = .panic := by
  rcases hg : readGraphicControlExtension data idx with g | e | _
  · obtain ⟨h33, h249, _⟩ := gce_ok_elim hg
    have : readApplicationExtension data idx = .err .notApplicationExtension := by
      simp [readApplicationExtension, h33, h249]
    rw [this] at h
    simp at h
  · simp [readGraphicBlock, hg, h]
  · simp [readGraphicBlock, hg]

theorem appExt_ok_graphic {data : List Nat} {idx : Nat} {e : ApplicationExtension} {j : Nat}
    (h : readApplicationExtension data idx = .ok (e, j)) :
    readGraphicBlock data idx = .ok j := by
  obtain ⟨h33, h255, _⟩ := appExt_ok_elim h
  have hg : readGraphicControlExtension data idx = .err .noGraphicControlLabel := by
    simp [readGraphicControlExtension, h33, h255]
  simp [readGraphicBlock, hg, h]

theorem graphicOk_step {data : List Nat} {idx m : Nat} (r : Bool) (gs : Gifstate)
    (h : readGraphicBlock data idx = .ok m) :
    dispatchStep r data idx gs = .cont data m gs := by
  rcases hsp : readSpecialPurposeBlock data idx with ⟨ext, j⟩ | e | _
  · have happ := special_ok_elim hsp
    have hgj := appExt_ok_graphic happ
    rw [hgj] at h
    injection h with h1
    subst h1
    simp [dispatchStep, hsp]
  · simp [dispatchStep, hsp, h]
  · have := appExt_panic_graphic (special_panic_elim hsp)
    rw [this] at h
    simp at h

theorem dispatchStep_spec (r : Bool) (data : List Nat) (idx : Nat) (gs : Gifstate) :
    (∃ j, dispatchStep r data idx gs = .cont data j gs ∧ idx + 2 ≤ j ∧ idx < data.length)
    ∨ (dispatchStep r data idx gs = .cont (data.set idx 33) idx
          { gs with readTrailer := true, bytesOutstanding := data.length - (idx+1),
                    patches := gs.patches ++ [⟨idx, 59, 33⟩] }
        ∧ data[idx]? = some 59 ∧ idx + 1 < data.length ∧ r = true
        ∧ ∃ m, readGraphicBlock (data.set idx 33) idx = .ok m)
    ∨ (∃ g n, dispatchStep r data idx gs = .done data g n ∧ g.patches = gs.patches)
    ∨ (∃ g e, dispatchStep r data idx gs = .fail data g e ∧ g.patches = gs.patches)
    ∨ (∃ g, dispatchStep r data idx gs = .panicked data g ∧ g.patches = gs.patches) := by
  rcases hsp : readSpecialPurposeBlock data idx with ⟨ext, j⟩ | eSp | _
  · left
    obtain ⟨h33, _, hadv⟩ := appExt_ok_elim (special_ok_elim hsp)
    exact ⟨j, by simp [dispatchStep, hsp], by omega, lt_of_getElem?_eq_some h33⟩
  · rcases hg : readGraphicBlock data idx with j | eG | _
    · left
      obtain ⟨hadv, hlt⟩ := graphic_ok_elim hg
      exact ⟨j, by simp [dispatchStep, hsp, hg], hadv, hlt⟩
    · rcases ht : readTrailer data idx with n | eT | _
      · obtain ⟨h59, rfl⟩ := trailer_ok_elim ht
        by_cases hn : idx + 1 < data.length
        · cases r with
          | false =>
            right; right; left
            have hstep : dispatchStep false data idx gs = .done data
                { gs with readTrailer := true,
                          bytesOutstanding := data.length - (idx+1) } (idx+1) := by
              simp [dispatchStep, hsp, hg, ht, hn]
            exact ⟨_, _, hstep, rfl⟩
          | true =>
            rcases hsv : readGraphicBlock (data.set idx 33) idx with m | eV | _
            · right; left
              have hstep : dispatchStep true data idx gs = .cont (data.set idx 33) idx
                  { gs with readTrailer := true,
                            bytesOutstanding := data.length - (idx+1),
                            patches := gs.patches ++ [⟨idx, 59, 33⟩] } := by
                simp [dispatchStep, hsp, hg, ht, hn, hsv]
              exact ⟨hstep, h59, hn, rfl, m, rfl⟩
            · right; right; left
              have hstep : dispatchStep true data idx gs = .done data
                  { gs with readTrailer := true,
                            bytesOutstanding := data.length - (idx+1) } (idx+1) := by
                simp [dispatchStep, hsp, hg, ht, hn, hsv]
              exact ⟨_, _, hstep, rfl⟩
            · right; right; right; right
              have hstep : dispatchStep true data idx gs = .panicked data
                  { gs with readTrailer := true,
                            bytesOutstanding := data.length - (idx+1) } := by
                simp [dispatchStep, hsp, hg, ht, hn, hsv]
              exact ⟨_, hstep, rfl⟩
        · right; right; left
          have hstep : dispatchStep r data idx gs = .done data
              { gs with readTrailer := true, bytesOutstanding := 0 } (idx+1) := by
            simp [dispatchStep, hsp, hg, ht, hn]
          exact ⟨_, _, hstep, rfl⟩
      · right; right; right; left
        exact ⟨gs, .unrecognizedBlock idx data.length,
          by simp [dispatchStep, hsp, hg, ht], rfl⟩
      · right; right; right; right
        exact ⟨gs, by simp [dispatchStep, hsp, hg, ht], rfl⟩
    · right; right; right; right
      exact ⟨gs, by simp [dispatchStep, hsp, hg], rfl⟩
  · right; right; right; right
    exact ⟨gs, by simp [dispatchStep, hsp], rfl⟩

theorem dataBlocksLoop_cont (f : Nat) {r : Bool} {data d' : List Nat} {idx i' : Nat}
    {gs g' : Gifstate} (h : dispatchStep r data idx gs = .cont d' i' g') :
    dataBlocksLoop r (f+1) data idx gs = dataBlocksLoop r f d' i' g' := by
  simp [dataBlocksLoop, h]

theorem dataBlocksLoop_done (f : Nat) {r : Bool} {data d' : List Nat} {idx n : Nat}
    {gs g' : Gifstate} (h : dispatchStep r data idx gs = .done d' g' n) :
    dataBlocksLoop r (f+1) data idx gs = some (d', g', .ok n) := by
  simp [dataBlocksLoop, h]

theorem dataBlocksLoop_fail (f : Nat) {r : Bool} {data d' : List Nat} {idx : Nat}
    {gs g' : Gifstate} {e : GifError} (h : dispatchStep r data idx gs = .fail d' g' e) :
    dataBlocksLoop r (f+1) data idx gs = some (d', g', .err e) := by
  simp [dataBlocksLoop, h]

theorem dataBlocksLoop_panicked (f : Nat) {r : Bool} {data d' : List Nat} {idx : Nat}
    {gs g' : Gifstate} (h : dispatchStep r data idx gs = .panicked d' g') :
    dataBlocksLoop r (f+1) data idx gs = some (d', g', .panic) := by
  simp [dataBlocksLoop, h]

theorem stepMeasure_le (data : List Nat) (j : Nat) :
    stepMeasure data j ≤ data.length - j + 1 := by
  unfold stepMeasure
  split <;> omega

theorem stepMeasure_ge (data : List Nat) (j : Nat) :
    data.length - j ≤ stepMeasure data j := by
  unfold stepMeasure
  split <;> omega

theorem stepMeasure_of_ge {data : List Nat} {j : Nat} (h : data.length ≤ j) :
    stepMeasure data j = 0 := by
  unfold stepMeasure
  rw [List.getElem?_eq_none h, if_neg (by simp)]
  omega

theorem dataBlocksLoop_isSome (r : Bool) :
    ∀ fuel data idx gs, stepMeasure data idx < fuel →
      (dataBlocksLoop r fuel data idx gs).isSome := by
  intro fuel
  induction fuel with
  | zero => intro data idx gs h; omega
  | succ f ih =>
    intro data idx gs h
    rcases dispatchStep_spec r data idx gs with
      ⟨j, hstep, hj, hlt⟩ | ⟨hstep, h59, hlt, hr, m, hm⟩ |
      ⟨g, n, hstep, _⟩ | ⟨g, e, hstep, _⟩ | ⟨g, hstep, _⟩
    · rw [dataBlocksLoop_cont f hstep]
      apply ih
      have m2 := stepMeasure_ge data idx
      rcases Nat.lt_or_ge j data.length with hj2 | hj2
      · have m1 := stepMeasure_le data j
        omega
      · rw [stepMeasure_of_ge hj2]
        omega
    · rw [dataBlocksLoop_cont f hstep]
      apply ih
      have e1 : stepMeasure (data.set idx 33) idx = data.length - idx := by
        unfold stepMeasure
        rw [List.length_set, List.getElem?_set_eq_of_lt 33 (by omega)]
        simp
      have e2 : stepMeasure data idx = (data.length - idx) + 1 := by
        unfold stepMeasure
        rw [if_pos h59]
      omega
    · rw [dataBlocksLoop_done f hstep]; rfl
    · rw [dataBlocksLoop_fail f hstep]; rfl
    · rw [dataBlocksLoop_panicked f hstep]; rfl

theorem lsd_ok_elim {data : List Nat} {idx j : Nat} {sd : LogicalScreenDescriptor}
    (h : readLogicalScreenDescriptor data idx = .ok (sd, j)) :
    j = idx + 7 ∧ idx + 6 < data.length := by
  rcases hp : data[idx+4]? with _ | packed
  · simp only [readLogicalScreenDescriptor, hp] at h
    simp at h
  · simp only [readLogicalScreenDescriptor, hp] at h
    rcases hb : data[idx+5]? with _ | bg
    · rw [hb] at h; simp at h
    rw [hb] at h
    simp only at h
    split at h
    · simp at h
    rcases ha : data[idx+6]? with _ | aspect
    · rw [ha] at h; simp at h
    rw [ha] at h
    simp only at h
    injection h with h1
    injection h1 with h2 h3
    exact ⟨h3.symm, lt_of_getElem?_eq_some ha⟩

theorem measure_lt_of_start {data : List Nat} {idx j1 : Nat} (hstart : j1 + 7 ≤ idx)
    (hlen : j1 + 6 < data.length) : stepMeasure data idx < data.length := by
  rcases Nat.lt_or_ge idx data.length with hi | hi
  · have := stepMeasure_le data idx
    omega
  · rw [stepMeasure_of_ge hi]
    omega

theorem loop_patchInv (r : Bool) :
    ∀ fuel data idx gs d g res,
      dataBlocksLoop r fuel data idx gs = some (d, g, res) →
      PatchInv data gs → PatchInv d g := by
  intro fuel
  induction fuel with
  | zero => intro data idx gs d g res h hinv; simp [dataBlocksLoop] at h
  | succ f ih =>
    intro data idx gs d g res h hinv
    rcases dispatchStep_spec r data idx gs with
      ⟨j, hstep, _, _⟩ | ⟨hstep, h59, hlt, hr, m, hm⟩ |
      ⟨g2, n, hstep, hp⟩ | ⟨g2, e, hstep, hp⟩ | ⟨g2, hstep, hp⟩
    · rw [dataBlocksLoop_cont f hstep] at h
      exact ih data j gs d g res h hinv
    · rw [dataBlocksLoop_cont f hstep] at h
      refine ih _ _ _ d g res h ?_
      intro p hp2
      simp only [List.mem_append, List.mem_singleton] at hp2
      rcases hp2 with hp2 | rfl
      · obtain ⟨hi, hv, ho, hn⟩ := hinv p hp2
        refine ⟨by rw [List.length_set]; exact hi, ?_, ho, hn⟩
        by_cases hpe : p.index = idx
        · rw [hpe, List.getElem?_set_eq_of_lt 33 (by omega), hn]
        · rw [List.getElem?_set_ne (fun he => hpe he.symm)]
          exact hv
      · refine ⟨?_, ?_, rfl, rfl⟩
        · show idx < (data.set idx 33).length
          rw [List.length_set]
          omega
        · show (data.set idx 33)[idx]? = some 33
          rw [List.getElem?_set_eq_of_lt 33 (by omega)]
    · rw [dataBlocksLoop_done f hstep] at h
      simp only [Option.some.injEq, Prod.mk.injEq] at h
      obtain ⟨rfl, rfl, _⟩ := h
      intro p hp2
      rw [hp] at hp2
      exact hinv p hp2
    · rw [dataBlocksLoop_fail f hstep] at h
      simp only [Option.some.injEq, Prod.mk.injEq] at h
      obtain ⟨rfl, rfl, _⟩ := h
      intro p hp2
      rw [hp] at hp2
      exact hinv p hp2
    · rw [dataBlocksLoop_panicked f hstep] at h
      simp only [Option.some.injEq, Prod.mk.injEq] at h
      obtain ⟨rfl, rfl, _⟩ := h
      intro p hp2
      rw [hp] at hp2
      exact hinv p hp2

theorem applyPatches_skip : ∀ (ps : List Patch) (d : List Nat),
    (∀ p ∈ ps, ∃ b, d[p.index]? = some b ∧ b ≠ p.oldValue) →
    applyPatchesRes d ps = .ok d := by
  intro ps
  induction ps with
  | nil => intro d h; rfl
  | cons p ps ih =>
    intro d h
    obtain ⟨b, hb, hne⟩ := h p (by simp)
    unfold applyPatchesRes
    rw [hb]
    simp only []
    rw [if_neg hne]
    exact ih d (fun q hq => h q (by simp [hq]))

/-! Claim theorems. -/

/-- C3: the claim states that no grammar production ever reads outside the
buffer's bounds and that exhaustion yields a typed failure.  The code indexes
the buffer without bounds checks, so an empty buffer makes `readHeader` read
`data[0]` out of bounds and a buffer truncated after the 6-byte header makes
`readLogicalScreenDescriptor` read `data[10]` out of bounds: both runs end in
a runtime panic (`Res.panic`), not a typed failure. -/
theorem c3_theorem :
    decodeGIF false [] = some ([], ⟨false, false, 0, []⟩, .panic)
    ∧ decodeGIF true [] = some ([], ⟨false, false, 0, []⟩, .panic)
    ∧ decodeGIF false bufHeaderOnly = some (bufHeaderOnly, ⟨true, false, 0, []⟩, .panic)
    ∧ decodeGIF true bufHeaderOnly = some (bufHeaderOnly, ⟨true, false, 0, []⟩, .panic) :=
  ⟨by decide, by decide, by decide, by decide⟩

/-- C5: the trailer-forgery heuristic never mutates the authoritative buffer
except when the speculative Graphic Block re-parse succeeds, and when the
attempt fails the iteration returns with the buffer, the patch ledger and the
just-recorded outstanding byte count all unchanged by the attempt; the scratch
copy is never part of the outcome. -/
theorem c5_theorem : ∀ (r : Bool) (data : List Nat) (idx : Nat) (gs : Gifstate),
    ((dispatchStep r data idx gs).buf = data ∨
      ((dispatchStep r data idx gs).buf = data.set idx 33 ∧ r = true ∧
        ∃ m, readGraphicBlock (data.set idx 33) idx = .ok m))
    ∧ (∀ n e, readTrailer data idx = .ok n → n < data.length →
        readGraphicBlock (data.set idx 33) idx = .err e →
        dispatchStep r data idx gs = .done data
          { gs with readTrailer := true, bytesOutstanding := data.length - n } n) := by
  intro r data idx gs
  constructor
  · rcases dispatchStep_spec r data idx gs with
      ⟨j, hstep, _, _⟩ | ⟨hstep, _, _, hr, m, hm⟩ |
      ⟨g, n, hstep, _⟩ | ⟨g, e, hstep, _⟩ | ⟨g, hstep, _⟩
    · left; rw [hstep]; rfl
    · right; rw [hstep]; exact ⟨rfl, hr, m, hm⟩
    · left; rw [hstep]; rfl
    · left; rw [hstep]; rfl
    · left; rw [hstep]; rfl
  · intro n e ht hn hsv
    obtain ⟨h59, rfl⟩ := trailer_ok_elim ht
    have hsp := special_at59 h59
    have hg := graphic_at59 h59
    cases r
    · simp [dispatchStep, hsp, hg, ht, hn]
    · simp [dispatchStep, hsp, hg, ht, hn, hsv]

/-- C5 witness: on the two-image buffer whose premature trailer is followed by
a complete Graphic Block, the speculative re-parse fails and the iteration
returns with the buffer untouched, no patch, and the recorded count. -/
theorem c5_witness :
    dispatchStep true bufTwoBlocks 25 ⟨true, false, 0, []⟩ =
      .done bufTwoBlocks ⟨true, true, 13, []⟩ 26 :=
  (c5_theorem true bufTwoBlocks 25 ⟨true, false, 0, []⟩).2 26
    (.noGraphicRenderingBlock .notGraphicRenderingBlock) (by decide) (by decide) (by decide)

/-- C6: a buffer with a valid header whose logical screen descriptor clears
the global-colour-table flag but carries a non-zero background colour index
always fails with the descriptor-invariant error, whatever the rest of the
buffer holds. -/
theorem c6_theorem (r : Bool) (data : List Nat) (hdr : Header)
    (h0 : readHeader data 0 = .ok (hdr, 6)) (packed bg : Nat)
    (h10 : data[10]? = some packed) (hp : ¬(packed &&& 128 = 128))
    (h11 : data[11]? = some bg) (hbg : bg ≠ 0) :
    decodeGIF r data = some (data, ⟨true, false, 0, []⟩,
      .err (.inLSD .backgroundIndexWithoutTable)) := by
  have hl : readLogicalScreenDescriptor data 6 = .err .backgroundIndexWithoutTable := by
    have e10 : data[6+4]? = some packed := by
      have e : (6 + 4 : Nat) = 10 := rfl
      rw [e]; exact h10
    have e11 : data[6+5]? = some bg := by
      have e : (6 + 5 : Nat) = 11 := rfl
      rw [e]; exact h11
    simp only [readLogicalScreenDescriptor, e10, e11]
    rw [if_pos ⟨hp, hbg⟩]
  simp [decodeGIF, h0, hl, initState]

/-- C6 witness at a concrete buffer with background colour index 5 and no
global colour table. -/
theorem c6_witness :
    decodeGIF false bufBadBackground = some (bufBadBackground, ⟨true, false, 0, []⟩,
      .err (.inLSD .backgroundIndexWithoutTable)) :=
  c6_theorem false bufBadBackground ⟨"GIF", "89a"⟩ (by decide) 0 5 (by decide) (by decide)
    (by decide) (by decide)

/-- C7: the byte length used to skip a global or local colour table is exactly
`3 * 2^(exponent+1)` for every exponent in `[0,7]` — 6 at exponent 0 and 768
at exponent 7 — and `readGlobalColourTable` advances by exactly that amount.
The Go expression `3 * int(math.Exp2(float64(e+1)))` is exact here because the
IEEE-754 double value of `Exp2` at integer arguments up to 8 is exactly the
integer power of two. -/
theorem c7_theorem :
    (∀ e, e ≤ 7 → colourTableBytes e = 3 * 2 ^ (e + 1) ∧
      6 ≤ colourTableBytes e ∧ colourTableBytes e ≤ 768)
    ∧ colourTableBytes 0 = 6 ∧ colourTableBytes 7 = 768
    ∧ ∀ (sd : LogicalScreenDescriptor) (idx : Nat),
        readGlobalColourTable sd idx = idx + colourTableBytes sd.GlobalColourTableSize := by
  refine ⟨?_, by decide, by decide, fun sd idx => rfl⟩
  intro e he
  refine ⟨rfl, ?_, ?_⟩
  · have h2 : 2 ^ 1 ≤ 2 ^ (e + 1) := Nat.pow_le_pow_right (by omega) (by omega)
    have : colourTableBytes e = 3 * 2 ^ (e + 1) := rfl
    omega
  · have h2 : 2 ^ (e + 1) ≤ 2 ^ 8 := Nat.pow_le_pow_right (by omega) (by omega)
    have h8 : (2 : Nat) ^ 8 = 256 := by decide
    have : colourTableBytes e = 3 * 2 ^ (e + 1) := rfl
    omega

/-- C7 witness at the largest exponent. -/
theorem c7_witness :
    colourTableBytes 7 = 3 * 2 ^ (7 + 1) ∧ 6 ≤ colourTableBytes 7 ∧
      colourTableBytes 7 ≤ 768 :=
  c7_theorem.1 7 (by decide)

/-- C8 (amended): on every dispatcher iteration the productions are attempted
at the current offset in the order Special-Purpose Block, Graphic Block,
Trailer, and the first success is taken; a Graphic Block whose consumed
Graphic Control Extension is not followed by a rendering block fails as a unit
provided both diagnostic bytes at the rendering offset are in bounds (with
fewer than two bytes remaining, the failure path itself reads out of bounds,
see the counterexample). -/
theorem c8_theorem : ∀ (r : Bool) (data : List Nat) (idx : Nat) (gs : Gifstate),
    (∀ ext j, readSpecialPurposeBlock data idx = .ok (ext, j) →
      dispatchStep r data idx gs = .cont data j gs)
    ∧ (∀ eSp j, readSpecialPurposeBlock data idx = .err eSp →
        readGraphicBlock data idx = .ok j →
        dispatchStep r data idx gs = .cont data j gs)
    ∧ (∀ eSp eG n, readSpecialPurposeBlock data idx = .err eSp →
        readGraphicBlock data idx = .err eG → readTrailer data idx = .ok n →
        n = data.length →
        dispatchStep r data idx gs =
          .done data { gs with readTrailer := true, bytesOutstanding := 0 } n)
    ∧ (∀ eSp eG eT, readSpecialPurposeBlock data idx = .err eSp →
        readGraphicBlock data idx = .err eG → readTrailer data idx = .err eT →
        dispatchStep r data idx gs = .fail data gs (.unrecognizedBlock idx data.length))
    ∧ (∀ j e1 e2 b0 b1, readGraphicControlExtension data idx = .ok j →
        readApplicationExtension data j = .err e1 →
        readGraphicRenderingBlock data j = .err e2 →
        data[j]? = some b0 → data[j+1]? = some b1 →
        readGraphicBlock data idx = .err (.gceWithoutRenderingBlock e2 b0 b1)) := by
  intro r data idx gs
  refine ⟨?_, ?_, ?_, ?_, ?_⟩
  · intro ext j hsp
    simp [dispatchStep, hsp]
  · intro eSp j hsp hg
    simp [dispatchStep, hsp, hg]
  · intro eSp eG n hsp hg ht hn
    obtain ⟨h59, rfl⟩ := trailer_ok_elim ht
    have hnlt : ¬(idx + 1 < data.length) := by omega
    simp [dispatchStep, hsp, hg, ht, hnlt]
  · intro eSp eG eT hsp hg ht
    simp [dispatchStep, hsp, hg, ht]
  · intro j e1 e2 b0 b1 hgce happ hrend hb0 hb1
    simp [readGraphicBlock, hgce, happ, hrend, hb0, hb1]

/-- C8 witness: one concrete instance of each alternation clause, and a
unit-failure of a Graphic Block whose GCE is followed by two junk bytes. -/
theorem c8_witness :
    dispatchStep false appExtBlock 0 initState = .cont appExtBlock 15 initState
    ∧ dispatchStep false tbiBlock 0 initState = .cont tbiBlock 12 initState
    ∧ dispatchStep false [59] 0 initState = .done [59] ⟨false, true, 0, []⟩ 1
    ∧ dispatchStep false [0] 0 initState = .fail [0] initState (.unrecognizedBlock 0 1)
    ∧ readGraphicBlock gceThenBytes 0 =
        .err (.gceWithoutRenderingBlock .notGraphicRenderingBlock 0 0) := by
  refine ⟨?_, ?_, ?_, ?_, ?_⟩
  · exact (c8_theorem false appExtBlock 0 initState).1
      ⟨[65, 65, 65, 65, 65, 65, 65, 65], [66, 66, 66]⟩ 15 (by decide)
  · exact (c8_theorem false tbiBlock 0 initState).2.1
      (.notSpecialPurpose .noExtensionIntroducer) 12 (by decide) (by decide)
  · exact (c8_theorem false [59] 0 initState).2.2.1
      (.notSpecialPurpose .noExtensionIntroducer)
      (.noGraphicRenderingBlock .notGraphicRenderingBlock) 1
      (by decide) (by decide) (by decide) (by decide)
  · exact (c8_theorem false [0] 0 initState).2.2.2.1
      (.notSpecialPurpose .noExtensionIntroducer)
      (.noGraphicRenderingBlock .notGraphicRenderingBlock) .notATrailer
      (by decide) (by decide) (by decide)
  · exact (c8_theorem false gceThenBytes 0 initState).2.2.2.2 8
      .noExtensionIntroducer .notGraphicRenderingBlock 0 0
      (by decide) (by decide) (by decide) (by decide) (by decide)

/-- C8 counterexample: with a Graphic Control Extension consumed and a single
byte left, the rendering block fails but the combined production panics on
the diagnostic read of `data[idx+1]` instead of failing as a unit, and the
dispatcher aborts without trying Trailer. -/
theorem c8_counterexample :
    readGraphicControlExtension gceTruncated 0 = .ok 8
    ∧ readGraphicRenderingBlock gceTruncated 8 = .err .notGraphicRenderingBlock
    ∧ readGraphicBlock gceTruncated 0 = .panic
    ∧ dispatchStep false gceTruncated 0 initState = .panicked gceTruncated initState :=
  ⟨by decide, by decide, by decide, by decide⟩

/-- C2 (amended): when a Trailer succeeds before the true end of the buffer
and recovery is declined or the speculative re-parse fails, the dispatcher
iteration itself returns success (`.done`, neither `.fail` nor `.panicked`)
with a positive outstanding byte count recorded and the ledger unchanged; the
top-level `decodeGIF` afterwards turns the short final offset into the hard
`incompleteParse` error (see the counterexample). -/
theorem c2_theorem : ∀ (r : Bool) (data : List Nat) (idx : Nat) (gs : Gifstate),
    data[idx]? = some 59 → idx + 1 < data.length →
    (r = false ∨ ∃ e, readGraphicBlock (data.set idx 33) idx = .err e) →
    dispatchStep r data idx gs =
      .done data { gs with readTrailer := true,
                           bytesOutstanding := data.length - (idx + 1) } (idx + 1)
    ∧ 0 < data.length - (idx + 1) := by
  intro r data idx gs h59 hn hrec
  have hsp := special_at59 h59
  have hg := graphic_at59 h59
  have ht := trailer_at59 h59
  refine ⟨?_, by omega⟩
  rcases hrec with rfl | ⟨e, he⟩
  · simp [dispatchStep, hsp, hg, ht, hn]
  · cases r
    · simp [dispatchStep, hsp, hg, ht, hn]
    · simp [dispatchStep, hsp, hg, ht, hn, he]

/-- C2 witness: the minimal buffer with an early trailer and one trailing
byte, recovery declined. -/
theorem c2_witness :
    dispatchStep false bufEarlyTrailer 13 ⟨true, false, 0, []⟩ =
      .done bufEarlyTrailer ⟨true, true, 1, []⟩ 14
    ∧ 0 < bufEarlyTrailer.length - (13 + 1) :=
  c2_theorem false bufEarlyTrailer 13 ⟨true, false, 0, []⟩ (by decide) (by decide)
    (Or.inl rfl)

/-- C2 counterexample: on the early-trailer buffer the overall parse does not
report success — `decodeGIF` returns the hard `incompleteParse` error (with
the outstanding byte count recorded in the state), both with recovery
declined and with recovery enabled but failing. -/
theorem c2_counterexample :
    decodeGIF false bufEarlyTrailer = some (bufEarlyTrailer, ⟨true, true, 1, []⟩,
      .err (.incompleteParse 14 15))
    ∧ decodeGIF true bufEarlyTrailer = some (bufEarlyTrailer, ⟨true, true, 1, []⟩,
      .err (.incompleteParse 14 15)) :=
  ⟨by decide, by decide⟩

/-- C4 (amended): when the speculative re-parse at a premature trailer offset
succeeds, the substitution is committed to the real buffer and the patch is
appended, but the dispatcher resumes scanning at the unchanged offset `idx`
(not at the offset the speculative production returned); the next iteration
then re-parses the recovered block on the patched buffer and arrives at that
same returned offset. -/
theorem c4_theorem : ∀ (data : List Nat) (idx n m : Nat) (gs gs' : Gifstate),
    readTrailer data idx = .ok n → n < data.length →
    readGraphicBlock (data.set idx 33) idx = .ok m →
    gs' = { gs with readTrailer := true
                  , bytesOutstanding := data.length - n
                  , patches := gs.patches ++ [⟨idx, 59, 33⟩] } →
    dispatchStep true data idx gs = .cont (data.set idx 33) idx gs'
    ∧ dispatchStep true (data.set idx 33) idx gs' = .cont (data.set idx 33) m gs' := by
  intro data idx n m gs gs' ht hn hm hgs
  obtain ⟨h59, rfl⟩ := trailer_ok_elim ht
  subst hgs
  constructor
  · have hsp := special_at59 h59
    have hg := graphic_at59 h59
    simp [dispatchStep, hsp, hg, ht, hn, hm]
  · exact graphicOk_step true _ hm

/-- C4 witness: the recoverable buffer, premature trailer at 25, speculative
parse ending at 45. -/
theorem c4_witness :
    dispatchStep true bufRecoverable 25 ⟨true, false, 0, []⟩ =
      .cont (bufRecoverable.set 25 33) 25 ⟨true, true, 20, [⟨25, 59, 33⟩]⟩
    ∧ dispatchStep true (bufRecoverable.set 25 33) 25 ⟨true, true, 20, [⟨25, 59, 33⟩]⟩ =
      .cont (bufRecoverable.set 25 33) 45 ⟨true, true, 20, [⟨25, 59, 33⟩]⟩ :=
  c4_theorem bufRecoverable 25 26 45 ⟨true, false, 0, []⟩ ⟨true, true, 20, [⟨25, 59, 33⟩]⟩
    (by decide) (by decide) (by decide) (by decide)

/-- C4 counterexample: after the successful recovery at offset 25 the
dispatcher continues at offset 25, not at the offset 45 the speculative
Graphic Block production returned, so the recovered block is parsed again. -/
theorem c4_counterexample :
    dispatchStep true bufRecoverable 25 ⟨true, false, 0, []⟩ =
      .cont (bufRecoverable.set 25 33) 25 ⟨true, true, 20, [⟨25, 59, 33⟩]⟩
    ∧ readGraphicBlock (bufRecoverable.set 25 33) 25 = .ok 45
    ∧ (25 : Nat) ≠ 45 :=
  ⟨by decide, by decide, by decide⟩

/-- C9: the parse terminates on every buffer and configuration.  `decodeGIF`
runs the dispatcher loop with fuel equal to the buffer length, and the fuel
never runs out: every production strictly advances the offset on success, and
an iteration that performs a successful forgery recovery keeps the offset but
turns the trailer byte into an introducer, so the combined measure decreases
every iteration and the iteration count is bounded by the buffer length. -/
theorem c9_theorem : ∀ (r : Bool) (data : List Nat), (decodeGIF r data).isSome := by
  intro r data
  rcases hh : readHeader data 0 with ⟨hdr, j1⟩ | e | _
  · rcases hl : readLogicalScreenDescriptor data j1 with ⟨sd, j2⟩ | e | _
    · obtain ⟨rfl, hlen⟩ := lsd_ok_elim hl
      have h7 : j1 + 7 ≤ (if sd.HasGlobalColourTable then
          readGlobalColourTable sd (j1 + 7) else j1 + 7) := by
        split
        · simp [readGlobalColourTable]
        · omega
      have hm := measure_lt_of_start h7 hlen
      have hs := dataBlocksLoop_isSome r data.length data _
        { initState with validSignature := true } hm
      rcases hout : dataBlocksLoop r data.length data
          (if sd.HasGlobalColourTable then readGlobalColourTable sd (j1 + 7) else j1 + 7)
          { initState with validSignature := true } with _ | ⟨d, g, res⟩
      · rw [hout] at hs
        simp at hs
      · rcases res with n | e | _
        · by_cases hnd : n = d.length <;>
            simp [decodeGIF, readDataBlocksAndTrailer, hh, hl, hout, hnd]
        · simp [decodeGIF, readDataBlocksAndTrailer, hh, hl, hout]
        · simp [decodeGIF, readDataBlocksAndTrailer, hh, hl, hout]
    · simp [decodeGIF, hh, hl]
    · simp [decodeGIF, hh, hl]
  · simp [decodeGIF, hh]
  · simp [decodeGIF, hh]

/-- C10: whenever the heuristic has appended a patch, the authoritative
buffer already holds the new value `0x21` at the patched index, so the
output-writing re-check of the old value `0x3b` fails for every recorded
patch, every patch is skipped, and the written output is exactly the
already-mutated buffer. -/
theorem c10_theorem : ∀ (r : Bool) (data d : List Nat) (gs : Gifstate) (res : Res Nat),
    decodeGIF r data = some (d, gs, res) →
    (∀ p ∈ gs.patches, p.index < d.length ∧ d[p.index]? = some p.newValue ∧
      p.oldValue = 59 ∧ p.newValue = 33 ∧ d[p.index]? ≠ some p.oldValue)
    ∧ applyPatchesRes d gs.patches = .ok d := by
  intro r data d gs res h
  have hinv : PatchInv d gs := by
    rcases hh : readHeader data 0 with ⟨hdr, j1⟩ | e | _
    · rcases hl : readLogicalScreenDescriptor data j1 with ⟨sd, j2⟩ | e | _
      · rcases hout : dataBlocksLoop r data.length data
            (if sd.HasGlobalColourTable then readGlobalColourTable sd j2 else j2)
            { initState with validSignature := true } with _ | ⟨d2, g2, res2⟩
        · simp only [decodeGIF, readDataBlocksAndTrailer, hh, hl, hout] at h
          simp at h
        · have hinv2 : PatchInv d2 g2 := by
            refine loop_patchInv r data.length data _ _ d2 g2 res2 hout ?_
            intro p hp
            simp [initState] at hp
          rcases res2 with n | e | _
          · simp only [decodeGIF, readDataBlocksAndTrailer, hh, hl, hout] at h
            split at h <;>
              · simp only [Option.some.injEq, Prod.mk.injEq] at h
                obtain ⟨rfl, rfl, _⟩ := h
                exact hinv2
          · simp only [decodeGIF, readDataBlocksAndTrailer, hh, hl, hout,
              Option.some.injEq, Prod.mk.injEq] at h
            obtain ⟨rfl, rfl, _⟩ := h
            exact hinv2
          · simp only [decodeGIF, readDataBlocksAndTrailer, hh, hl, hout,
              Option.some.injEq, Prod.mk.injEq] at h
            obtain ⟨rfl, rfl, _⟩ := h
            exact hinv2
      · simp only [decodeGIF, hh, hl, Option.some.injEq, Prod.mk.injEq] at h
        obtain ⟨rfl, rfl, _⟩ := h
        intro p hp
        simp [initState] at hp
      · simp only [decodeGIF, hh, hl, Option.some.injEq, Prod.mk.injEq] at h
        obtain ⟨rfl, rfl, _⟩ := h
        intro p hp
        simp [initState] at hp
    · simp only [decodeGIF, hh, Option.some.injEq, Prod.mk.injEq] at h
      obtain ⟨rfl, rfl, _⟩ := h
      intro p hp
      simp [initState] at hp
    · simp only [decodeGIF, hh, Option.some.injEq, Prod.mk.injEq] at h
      obtain ⟨rfl, rfl, _⟩ := h
      intro p hp
      simp [initState] at hp
  constructor
  · intro p hp
    obtain ⟨hi, hv, ho, hn⟩ := hinv p hp
    refine ⟨hi, hv, ho, hn, ?_⟩
    rw [hv, hn, ho]
    simp
  · refine applyPatches_skip gs.patches d ?_
    intro p hp
    obtain ⟨hi, hv, ho, hn⟩ := hinv p hp
    exact ⟨p.newValue, hv, by rw [hn, ho]; simp⟩

/-- C10 witness: the recovered parse of the forged-trailer buffer records one
patch, and replaying the ledger over the mutated output buffer changes
nothing. -/
theorem c10_witness :
    (∀ p ∈ [(⟨25, 59, 33⟩ : Patch)], p.index < (bufRecoverable.set 25 33).length ∧
      (bufRecoverable.set 25 33)[p.index]? = some p.newValue ∧
      p.oldValue = 59 ∧ p.newValue = 33 ∧
      (bufRecoverable.set 25 33)[p.index]? ≠ some p.oldValue)
    ∧ applyPatchesRes (bufRecoverable.set 25 33) [⟨25, 59, 33⟩] =
        .ok (bufRecoverable.set 25 33) :=
  c10_theorem true bufRecoverable (bufRecoverable.set 25 33)
    ⟨true, true, 0, [⟨25, 59, 33⟩]⟩ (.ok 46) (by decide)

/-- C1 (amended): consider a buffer of the shape Header, Logical Screen
Descriptor, [global colour table], block1, `0x3b`, tail, `0x3b`, where block1
parses as one Graphic Block ending at the first `0x3b` (offset `T`), the final
`0x3b` is the last byte, and rewriting the first `0x3b` to `0x21` makes the
region from `T` to just before the final byte a valid Graphic Block.  With
recovery disabled the parse stops at the first `0x3b` with
`bytesOutstanding = len(tail)+1` and an empty ledger (the top level then
reports the incomplete-parse error); with recovery enabled it consumes through
both blocks, ends with `bytesOutstanding = 0`, and records exactly one patch
at offset `T` with old value `0x3b` and new value `0x21`. -/
theorem c1_theorem (data : List Nat) (hdr : Header) (sd : LogicalScreenDescriptor) (T : Nat)
    (h1 : readHeader data 0 = .ok (hdr, 6))
    (h2 : readLogicalScreenDescriptor data 6 = .ok (sd, 13))
    (h3 : readGraphicBlock data
        (if sd.HasGlobalColourTable then readGlobalColourTable sd 13 else 13) = .ok T)
    (h4 : data[T]? = some 59)
    (h5 : T + 1 < data.length)
    (h6 : readGraphicBlock (data.set T 33) T = .ok (data.length - 1))
    (h7 : data[data.length - 1]? = some 59) :
    decodeGIF false data = some (data, ⟨true, true, data.length - (T + 1), []⟩,
      .err (.incompleteParse (T + 1) data.length))
    ∧ decodeGIF true data = some (data.set T 33, ⟨true, true, 0, [⟨T, 59, 33⟩]⟩,
      .ok data.length) := by
  obtain ⟨-, hlen13⟩ := lsd_ok_elim h2
  have hL : 12 < data.length := hlen13
  have hsp2 := special_at59 h4
  have hg2 := graphic_at59 h4
  have ht2 := trailer_at59 h4
  have hT_ne : T ≠ data.length - 1 := by omega
  have h7' : (data.set T 33)[data.length - 1]? = some 59 := by
    rw [List.getElem?_set_ne hT_ne]
    exact h7
  have hsp4 := special_at59 h7'
  have hg4 := graphic_at59 h7'
  have ht4 := trailer_at59 h7'
  have hlen_set : (data.set T 33).length = data.length := List.length_set data T 33
  constructor
  · have hstep2 : dispatchStep false data T { initState with validSignature := true } =
        .done data ⟨true, true, data.length - (T + 1), []⟩ (T + 1) := by
      simp [dispatchStep, hsp2, hg2, ht2, h5, initState]
    have htrace : ∀ f, dataBlocksLoop false (f + 2) data
        (if sd.HasGlobalColourTable then readGlobalColourTable sd 13 else 13)
        { initState with validSignature := true } =
        some (data, ⟨true, true, data.length - (T + 1), []⟩, .ok (T + 1)) := by
      intro f
      have e1 : dataBlocksLoop false (f + 2) data
          (if sd.HasGlobalColourTable then readGlobalColourTable sd 13 else 13)
          { initState with validSignature := true } =
          dataBlocksLoop false (f + 1) data T { initState with validSignature := true } :=
        dataBlocksLoop_cont (f + 1) (graphicOk_step false _ h3)
      rw [e1, dataBlocksLoop_done f hstep2]
    have hfuel : data.length = (data.length - 2) + 2 := by omega
    have hloop := htrace (data.length - 2)
    rw [← hfuel] at hloop
    have hne : ¬(T + 1 = data.length) := by omega
    simp [decodeGIF, readDataBlocksAndTrailer, h1, h2, hloop, hne]
  · have hstep2 : dispatchStep true data T { initState with validSignature := true } =
        .cont (data.set T 33) T ⟨true, true, data.length - (T + 1), [⟨T, 59, 33⟩]⟩ := by
      simp [dispatchStep, hsp2, hg2, ht2, h5, h6, initState]
    have hstep3 : dispatchStep true (data.set T 33) T
        ⟨true, true, data.length - (T + 1), [⟨T, 59, 33⟩]⟩ =
        .cont (data.set T 33) (data.length - 1)
          ⟨true, true, data.length - (T + 1), [⟨T, 59, 33⟩]⟩ :=
      graphicOk_step true _ h6
    have hstep4 : dispatchStep true (data.set T 33) (data.length - 1)
        ⟨true, true, data.length - (T + 1), [⟨T, 59, 33⟩]⟩ =
        .done (data.set T 33) ⟨true, true, 0, [⟨T, 59, 33⟩]⟩ ((data.length - 1) + 1) := by
      have hnot : ¬((data.length - 1) + 1 < data.length) := by omega
      simp [dispatchStep, hsp4, hg4, ht4, hnot]
    have htrace : ∀ f, dataBlocksLoop true (f + 4) data
        (if sd.HasGlobalColourTable then readGlobalColourTable sd 13 else 13)
        { initState with validSignature := true } =
        some (data.set T 33, ⟨true, true, 0, [⟨T, 59, 33⟩]⟩, .ok ((data.length - 1) + 1)) := by
      intro f
      have e1 : dataBlocksLoop true (f + 4) data
          (if sd.HasGlobalColourTable then readGlobalColourTable sd 13 else 13)
          { initState with validSignature := true } =
          dataBlocksLoop true (f + 3) data T { initState with validSignature := true } :=
        dataBlocksLoop_cont (f + 3) (graphicOk_step true _ h3)
      have e2 : dataBlocksLoop true (f + 3) data T { initState with validSignature := true } =
          dataBlocksLoop true (f + 2) (data.set T 33) T
            ⟨true, true, data.length - (T + 1), [⟨T, 59, 33⟩]⟩ :=
        dataBlocksLoop_cont (f + 2) hstep2
      have e3 : dataBlocksLoop true (f + 2) (data.set T 33) T
          ⟨true, true, data.length - (T + 1), [⟨T, 59, 33⟩]⟩ =
          dataBlocksLoop true (f + 1) (data.set T 33) (data.length - 1)
            ⟨true, true, data.length - (T + 1), [⟨T, 59, 33⟩]⟩ :=
        dataBlocksLoop_cont (f + 1) hstep3
      rw [e1, e2, e3, dataBlocksLoop_done f hstep4]
    have hfuel : data.length = (data.length - 4) + 4 := by omega
    have hloop := htrace (data.length - 4)
    rw [← hfuel] at hloop
    have hL1 : (data.length - 1) + 1 = data.length := by omega
    rw [hL1] at hloop
    simp [decodeGIF, readDataBlocksAndTrailer, h1, h2, hloop, hlen_set]

/-- C1 witness: the concrete recoverable buffer, with the forged trailer at
offset 25 hiding a Graphic Control Extension plus second image. -/
theorem c1_witness :
    decodeGIF false bufRecoverable = some (bufRecoverable, ⟨true, true, 20, []⟩,
      .err (.incompleteParse 26 46))
    ∧ decodeGIF true bufRecoverable = some (bufRecoverable.set 25 33,
      ⟨true, true, 0, [⟨25, 59, 33⟩]⟩, .ok 46) :=
  c1_theorem bufRecoverable ⟨"GIF", "89a"⟩ ⟨0, 0, false, 1, false, 0, 0, 0⟩ 25
    (by decide) (by decide) (by decide) (by decide) (by decide) (by decide) (by decide)

/-- C1 counterexample to the claim as literally stated: in `bufTwoBlocks` the
region between the two trailer sentinels is itself a complete valid Graphic
Block (exactly the claimed shape), yet parsing with recovery enabled does not
consume it: the speculative re-parse starts at the rewritten byte, which now
reads `0x21, 0x2c, ...` and matches no Graphic Block, so the parse still stops
at the first `0x3b` with `bytesOutstanding = 13 ≠ 0` and an empty ledger. -/
theorem c1_counterexample :
    readGraphicBlock bufTwoBlocks 13 = .ok 25
    ∧ bufTwoBlocks[25]? = some 59
    ∧ readGraphicBlock bufTwoBlocks 26 = .ok 38
    ∧ bufTwoBlocks[38]? = some 59
    ∧ bufTwoBlocks.length = 39
    ∧ decodeGIF true bufTwoBlocks = some (bufTwoBlocks, ⟨true, true, 13, []⟩,
        .err (.incompleteParse 26 39))
    ∧ (13 : Nat) ≠ 0 :=
  ⟨by decide, by decide, by decide, by decide, by decide, by decide, by decide⟩

end GifCheck
